import Mathlib

/-!
Verification of the Honeycomb OpenTelemetry exporter's span translation and
event-emission pipeline (package `honeycomb`: `honeycomb.go`, `translator.go`).

Modelling conventions:
* Go byte slices are `List Nat`; the `uint8` range `< 256` appears as a
  hypothesis where a theorem needs it.
* Go `time.Time` is an `Int` counting nanoseconds from Go's zero instant, so
  `t.IsZero()` is `t = 0`, and `e.Sub(s)` is `e - s`.
* `float64` quantities (only `duration_ms` and double attributes here) are
  modelled as exact rationals; the sign/zero facts proved about them are
  preserved by the exact float64 division by 10^6 of an int64.
* A libhoney event is a list of field writes in program order plus an optional
  timestamp; the value of a field is its last write (libhoney fields are a
  map, later `AddField` calls overwrite earlier ones).  `ev.Add(struct)`
  writes the struct's fields in declaration order, honoring `omitempty`.
* Go maps that the code iterates (attribute maps, option maps) are
  association lists in some iteration order.
-/

namespace Honeycomb

/-- Lowercase hex digit characters, as used by Go's `fmt` and `encoding/hex`. -/
def hexDigitChar (n : Nat) : Char :=
  ("0123456789abcdef".toList).getD n '0'

/-- Hex encoding of one byte: two lowercase hex digits (`encoding/hex`). -/
def byteHex (b : Nat) : List Char :=
  [hexDigitChar (b / 16), hexDigitChar (b % 16)]

/-- Raw hex encoding of a byte slice: `hex.EncodeToString` and `fmt.Sprintf`
with verb `%x` applied to a `[]byte` both produce this. -/
def rawHex : List Nat → List Char
  | [] => []
  | b :: bs => byteHex b ++ rawHex bs

/-- `binary.BigEndian.Uint64` applied to (the first 8 bytes of) a slice;
callers pass exactly 8 bytes. -/
def be64 (bs : List Nat) : Nat :=
  bs.foldl (fun acc b => acc * 256 + b) 0

/-- Go formatting verb `%016x` on a `uint64`: the 16 hex digits of the value,
zero padded, most significant first.  (A `uint64` is below `16 ^ 16`, so 16
digits always suffice.) -/
def hex016 (n : Nat) : List Char :=
  (List.range 16).map (fun i => hexDigitChar (n / 16 ^ (15 - i) % 16))

def traceIDShortLength : Nat := 8

def traceIDLongLength : Nat := 16

/-- Embedding of `getHoneycombTraceID` (honeycomb.go lines 797-816): short
inputs are hex encoded verbatim; a 16-byte id is split into big-endian high
and low halves, collapsing a zero high half; any other length of at least 8
reads the first 8 bytes as one big-endian 64-bit value. -/
def getHoneycombTraceID (traceID : List Nat) : List Char :=
  if traceID.length < traceIDShortLength then
    rawHex traceID
  else if traceID.length = traceIDLongLength then
    let low := be64 (traceID.drop traceIDShortLength)
    let high := be64 (traceID.take traceIDShortLength)
    if high ≠ 0 then hex016 high ++ hex016 low else hex016 low
  else
    hex016 (be64 (traceID.take traceIDShortLength))

/-- A character is a lowercase hex digit. -/
def IsLowerHexDigit (c : Char) : Prop :=
  c ∈ "0123456789abcdef".toList

instance (c : Char) : Decidable (IsLowerHexDigit c) := by
  unfold IsLowerHexDigit; infer_instance

/-! Encoder data model: span snapshots, libhoney events, `exportSpan`. -/

/-- Go `time.Time`, as nanoseconds from Go's zero instant; `IsZero` is `= 0`. -/
abbrev GoTime := Int

/-- A value handed to `libhoney.Event.AddField` (a Go `interface` value): the
scalar shapes this exporter produces. -/
inductive FieldValue where
  | str (s : String)
  | int (n : Int)
  | boolean (b : Bool)
  | float (q : ℚ)
  deriving DecidableEq

/-- `go.opentelemetry.io/otel/codes` (v0.14.0): Unset = 0, Error = 1, Ok = 2. -/
inductive StatusCode where
  | unset
  | error
  | ok
  deriving DecidableEq

/-- The numeric value of a status code (`int32(data.StatusCode)`). -/
def StatusCode.toInt : StatusCode → Int
  | .unset => 0
  | .error => 1
  | .ok => 2

/-- `trace.SpanContext`: raw trace id (16 bytes) and span id (8 bytes). -/
structure SpanContext where
  TraceID : List Nat
  SpanID : List Nat
  deriving DecidableEq

/-- `trace.Event`: a message event attached to a span. -/
structure MessageEvent where
  Name : String
  Time : GoTime
  Attributes : List (String × FieldValue)
  deriving DecidableEq

/-- `apitrace.Link`: a link to a span elsewhere, with its own attributes. -/
structure SpanLink where
  SpanContext : SpanContext
  Attributes : List (String × FieldValue)
  deriving DecidableEq

/-- `trace.SpanSnapshot` — the fields the encoder (`exportSpan` and
`honeycombSpan`) reads.  `Resource = none` models a nil `*resource.Resource`;
`some attrs` models a resource whose `Attributes()` yields `attrs`. -/
structure SpanSnapshot where
  SpanContext : SpanContext
  ParentSpanID : List Nat
  Name : String
  StartTime : GoTime
  EndTime : GoTime
  Attributes : List (String × FieldValue)
  MessageEvents : List MessageEvent
  Links : List SpanLink
  StatusCode : StatusCode
  StatusMessage : String
  HasRemoteParent : Bool
  DroppedLinkCount : Nat
  ChildSpanCount : Nat
  Resource : Option (List (String × FieldValue))
  deriving DecidableEq

/-- The all-zero `[8]byte` span id (`var initializedParentID [8]byte`). -/
def zeroSpanID : List Nat := List.replicate 8 0

/-- `otel trace.SpanID.String()`: plain hex encoding of the 8 bytes. -/
def spanIDString (b : List Nat) : String := ⟨rawHex b⟩

/-- The `span` struct of honeycomb.go (lines 777-786): the shape of the
primary trace event Honeycomb accepts.  `ParentID`, `Status` and `Error`
carry `omitempty` in their JSON tags. -/
structure span where
  TraceID : String
  Name : String
  ID : String
  ParentID : String
  DurationMilli : ℚ
  Status : String
  Error : Bool
  HasRemoteParent : Bool
  deriving DecidableEq

/-- Embedding of `honeycombSpan` (honeycomb.go lines 818-841). -/
def honeycombSpan (s : SpanSnapshot) : span :=
  let sc := s.SpanContext
  let parentID : String := ⟨rawHex s.ParentSpanID⟩
  { TraceID := ⟨getHoneycombTraceID sc.TraceID⟩
    ID := spanIDString sc.SpanID
    Name := s.Name
    HasRemoteParent := s.HasRemoteParent
    ParentID :=
      if s.ParentSpanID ≠ sc.SpanID ∧ s.ParentSpanID ≠ zeroSpanID then parentID
      else ""
    DurationMilli :=
      if ¬ s.StartTime = 0 ∧ ¬ s.EndTime = 0 then
        ((s.EndTime - s.StartTime : Int) : ℚ) / 1000000
      else 0
    Status := ""
    Error := s.StatusCode = StatusCode.error }

/-- A libhoney event: the sequence of field writes made to it, in program
order, plus its timestamp.  `timestamp = none` means the exporter never
assigned one, so the event keeps the default the libhoney client gave it. -/
structure LHEvent where
  fields : List (String × FieldValue)
  timestamp : Option GoTime
  deriving DecidableEq

/-- The last binding for a key in an association list: for event fields this
is the value of the field (last write wins), and for the modelled Go maps it
is the (unique) binding. -/
def findLast {α : Type} (k : String) : List (String × α) → Option α
  | [] => none
  | p :: t =>
    match findLast k t with
    | some v => some v
    | none => if p.1 = k then some p.2 else none

/-- Read a field off an event (last write wins). -/
def lookupField (ev : LHEvent) (k : String) : Option FieldValue :=
  findLast k ev.fields

/-- `libhoney.Client` as the encoder sees it: the static fields added with
`client.AddField` and the dynamic fields added with `client.AddDynamicField`
at exporter construction (honeycomb.go lines 888-893). -/
structure LHClient where
  staticFields : List (String × FieldValue)
  dynamicFields : List (String × (Unit → FieldValue))

/-- `client.NewEvent()`: a fresh event pre-populated with the client's static
fields and with each dynamic field function invoked anew for this event. -/
def LHClient.newEvent (c : LHClient) : LHEvent :=
  { fields :=
      c.staticFields ++ c.dynamicFields.map (fun p => (p.1, p.2 ()))
    timestamp := none }

/-- `ev.AddField`. -/
def addField (ev : LHEvent) (k : String) (v : FieldValue) : LHEvent :=
  { ev with fields := ev.fields ++ [(k, v)] }

/-- A run of consecutive `ev.AddField` calls. -/
def addFields (ev : LHEvent) (kvs : List (String × FieldValue)) : LHEvent :=
  { ev with fields := ev.fields ++ kvs }

/-- `transcribeAttributesTo` (honeycomb.go lines 770-774): add every
attribute as a field. -/
def transcribeAttributesTo (ev : LHEvent) (attrs : List (String × FieldValue)) :
    LHEvent :=
  addFields ev attrs

/-- The fields `ev.Add(honeycombSpan(data))` writes: the `span` struct fields
in declaration order, honoring `omitempty` (empty strings, `false`). -/
def hcSpanFields (hc : span) : List (String × FieldValue) :=
  [("trace.trace_id", .str hc.TraceID), ("name", .str hc.Name),
    ("trace.span_id", .str hc.ID)]
    ++ (if hc.ParentID = "" then [] else [("trace.parent_id", .str hc.ParentID)])
    ++ [("duration_ms", .float hc.DurationMilli)]
    ++ (if hc.Status = "" then []
        else [("response.status_code", .str hc.Status)])
    ++ (if hc.Error then [("error", .boolean true)] else [])
    ++ [("has_remote_parent", .boolean hc.HasRemoteParent)]

/-- The attribute list a (possibly absent) resource contributes. -/
def resourceAttrList :
    Option (List (String × FieldValue)) → List (String × FieldValue)
  | some attrs => attrs
  | none => []

/-- The fields `applyResourceAttributes` contributes, as one list. -/
def resourceServiceFields (serviceName : String)
    (res : Option (List (String × FieldValue))) : List (String × FieldValue) :=
  resourceAttrList res
    ++ (if serviceName = "" then [] else [("service_name", .str serviceName)])

/-- `applyResourceAttributes` (honeycomb.go lines 942-949): resource
attributes first, then `service_name` when the exporter has one. -/
def applyResourceAttributes (serviceName : String)
    (res : Option (List (String × FieldValue))) (ev : LHEvent) : LHEvent :=
  let ev :=
    match res with
    | some attrs => transcribeAttributesTo ev attrs
    | none => ev
  if serviceName = "" then ev
  else addField ev "service_name" (.str serviceName)

/-- `transcribeLayeredAttributesTo` (honeycomb.go lines 950-955): resource
underlay, then the record's own attributes. -/
def transcribeLayeredAttributesTo (serviceName : String)
    (res : Option (List (String × FieldValue))) (ev : LHEvent)
    (attrs : List (String × FieldValue)) : LHEvent :=
  transcribeAttributesTo (applyResourceAttributes serviceName res ev) attrs

/-- The primary span record of `exportSpan` (honeycomb.go lines 940-961 and
1013-1018): resource underlay and service name, timestamp = StartTime, the
`span` struct, the span attributes, then `status.code` and `status.message`. -/
def mkPrimaryEvent (c : LHClient) (serviceName : String) (data : SpanSnapshot) :
    LHEvent :=
  let ev := c.newEvent
  let ev := applyResourceAttributes serviceName data.Resource ev
  let ev := { ev with timestamp := some data.StartTime }
  let ev := addFields ev (hcSpanFields (honeycombSpan data))
  let ev := addFields ev data.Attributes
  let ev := addField ev "status.code" (.int data.StatusCode.toInt)
  addField ev "status.message" (.str data.StatusMessage)

/-- The fields `spanEv.Add(spanEvent then)` writes for one message event: the
`spanEvent` struct fields in declaration order (`ParentID` and `ParentName`
carry `omitempty`). -/
def spanEventFields (data : SpanSnapshot) (a : MessageEvent) :
    List (String × FieldValue) :=
  [("name", .str a.Name),
    ("trace.trace_id", .str ⟨getHoneycombTraceID data.SpanContext.TraceID⟩)]
    ++ (if spanIDString data.SpanContext.SpanID = "" then []
        else [("trace.parent_id", .str (spanIDString data.SpanContext.SpanID))])
    ++ (if data.Name = "" then []
        else [("trace.parent_name", .str data.Name)])
    ++ [("meta.annotation_type", .str "span_event")]

/-- The fields `linkEv.Add(link then)` writes for one span link: the `link`
struct fields in declaration order.  `RefType` is always
`spanRefTypeChildOf = 0`, which its `omitempty` tag drops, so it never
appears. -/
def linkFields (data : SpanSnapshot) (spanLink : SpanLink) :
    List (String × FieldValue) :=
  [("trace.trace_id", .str ⟨getHoneycombTraceID data.SpanContext.TraceID⟩)]
    ++ (if spanIDString data.SpanContext.SpanID = "" then []
        else [("trace.parent_id", .str (spanIDString data.SpanContext.SpanID))])
    ++ [("trace.link.trace_id",
          .str ⟨getHoneycombTraceID spanLink.SpanContext.TraceID⟩),
        ("trace.link.span_id", .str (spanIDString spanLink.SpanContext.SpanID)),
        ("meta.annotation_type", .str "link")]

/-- One message-event record (honeycomb.go lines 963-979): layered
attributes, timestamp = the event's own time, then the `spanEvent` struct
fields. -/
def mkMessageEventRecord (c : LHClient) (serviceName : String)
    (data : SpanSnapshot) (a : MessageEvent) : LHEvent :=
  let ev := c.newEvent
  let ev := transcribeLayeredAttributesTo serviceName data.Resource ev a.Attributes
  let ev := { ev with timestamp := some a.Time }
  addFields ev (spanEventFields data a)

/-- One link record (honeycomb.go lines 981-1011): layered attributes, no
timestamp assignment, then the `link` struct fields. -/
def mkLinkRecord (c : LHClient) (serviceName : String) (data : SpanSnapshot)
    (spanLink : SpanLink) : LHEvent :=
  let ev := c.newEvent
  let ev :=
    transcribeLayeredAttributesTo serviceName data.Resource ev spanLink.Attributes
  addFields ev (linkFields data spanLink)

/-- Embedding of `exportSpan` (honeycomb.go lines 939-1023), as the list of
records it sends, in send order: each message event's record, then each
link's record, then the primary span record (sent last, via
`SendPresampled`). -/
def exportSpan (c : LHClient) (serviceName : String) (data : SpanSnapshot) :
    List LHEvent :=
  data.MessageEvents.map (mkMessageEventRecord c serviceName data)
    ++ data.Links.map (mkLinkRecord c serviceName data)
    ++ [mkPrimaryEvent c serviceName data]

/-! Exporter field-set configuration: `WithField`, `WithFields`,
`WithDynamicField`, `WithDynamicFields` (honeycomb.go lines 543-656). -/

/-- A dynamic field's value-producing function (`func() interface`). -/
abbrev DynField := Unit → FieldValue

/-- The field-set part of `exporterConfig`: Go maps modelled as association
lists with unique keys. -/
structure exporterConfig where
  staticFields : List (String × FieldValue)
  dynamicFields : List (String × DynField)

/-- The zero `exporterConfig` that `NewExporter` starts from. -/
def emptyExporterConfig : exporterConfig :=
  { staticFields := [], dynamicFields := [] }

/-- The keys of an association list (the key set of a Go map). -/
def keysOf {α : Type} (l : List (String × α)) : List String :=
  l.map Prod.fst

/-- Go map `delete(m, name)`. -/
def removeFieldEntry {α : Type} (l : List (String × α)) (k : String) :
    List (String × α) :=
  l.filter (fun p => p.1 ≠ k)

/-- Go map insert `m[name] = value`: replace any existing binding for the
name.  A Go map is unordered, so where the binding sits in the modelled
association list carries no meaning; this model keeps the list key-unique by
removing the old binding and appending the new one. -/
def insertFieldEntry {α : Type} (l : List (String × α)) (k : String) (v : α) :
    List (String × α) :=
  removeFieldEntry l k ++ [(k, v)]

/-- The four field-registering exporter options.  A dynamic field's function
argument is `Option DynField`, with `none` for a nil Go function. -/
inductive FieldOption where
  | withField (name : String) (value : FieldValue)
  | withFields (m : List (String × FieldValue))
  | withDynamicField (name : String) (f : Option DynField)
  | withDynamicFields (m : List (String × Option DynField))

/-- Applying one option to the configuration (honeycomb.go lines 547-656):
`none` models the option returning an error, which makes `NewExporter` fail.
`WithField`/`WithFields` validate the name, insert into `staticFields` and
delete the name from `dynamicFields`; the dynamic variants additionally
require a non-nil function and act on the two maps the other way around. -/
def applyFieldOption (c : exporterConfig) :
    FieldOption → Option exporterConfig
  | .withField name value =>
    if name = "" then none
    else
      some { staticFields := insertFieldEntry c.staticFields name value
             dynamicFields := removeFieldEntry c.dynamicFields name }
  | .withFields m =>
    if m.any (fun p => p.1 = "") then none
    else
      some { staticFields :=
               m.foldl (fun l p => insertFieldEntry l p.1 p.2) c.staticFields
             dynamicFields :=
               m.foldl (fun l p => removeFieldEntry l p.1) c.dynamicFields }
  | .withDynamicField name f =>
    if name = "" then none
    else
      match f with
      | none => none
      | some fn =>
        some { dynamicFields := insertFieldEntry c.dynamicFields name fn
               staticFields := removeFieldEntry c.staticFields name }
  | .withDynamicFields m =>
    if m.any (fun p => p.1 = "" || p.2.isNone) then none
    else
      some { dynamicFields :=
               m.foldl
                 (fun l p =>
                   match p.2 with
                   | some fn => insertFieldEntry l p.1 fn
                   | none => l)
                 c.dynamicFields
             staticFields :=
               m.foldl (fun l p => removeFieldEntry l p.1) c.staticFields }

/-- `NewExporter`'s option loop (honeycomb.go lines 854-859): apply each
option in order, failing on the first error. -/
def runFieldOptions : exporterConfig → List FieldOption → Option exporterConfig
  | c, [] => some c
  | c, o :: t =>
    match applyFieldOption c o with
    | none => none
    | some c2 => runFieldOptions c2 t

/-- No key is bound in both association lists. -/
def pairDisjoint {α β : Type} (s : List (String × α))
    (d : List (String × β)) : Prop :=
  ∀ n ∈ keysOf s, n ∉ keysOf d

/-- The field-set invariant: no name is in both the static and the dynamic
mapping. -/
def FieldSetsDisjoint (c : exporterConfig) : Prop :=
  pairDisjoint c.staticFields c.dynamicFields

instance (c : exporterConfig) : Decidable (FieldSetsDisjoint c) := by
  unfold FieldSetsDisjoint pairDisjoint; infer_instance

/-! Decoder model: `createOTelAttributes` (translator.go lines 53-80) and the
status mapping of the wire decoder. -/

/-- The wire attribute value, a proto `oneof` over four recognized variants.
`stringValue none` is a set string variant whose `TruncatableString` wrapper
pointer is nil; `unrecognized` is a value carrying none of the four
recognized variants. -/
inductive OCAttributeValue where
  | stringValue (s : Option String)
  | boolValue (b : Bool)
  | intValue (n : Int)
  | doubleValue (q : ℚ)
  | unrecognized
  deriving DecidableEq

/-- `core.Value`: `invalid` is the zero value (type INVALID) a
`core.KeyValue` is left with when no switch case assigns it. -/
inductive OTelValue where
  | invalid
  | str (s : String)
  | boolean (b : Bool)
  | int64 (n : Int)
  | float64 (q : ℚ)
  deriving DecidableEq

/-- `attributeValueAsString` (translator.go lines 101-107): the wrapped
string, or "" when the wrapper is nil. -/
def attributeValueAsString : OCAttributeValue → String
  | .stringValue (some s) => s
  | _ => ""

/-- The value the switch in `createOTelAttributes` leaves in `keyValue.Value`
for one wire attribute: the decoded scalar for a recognized variant, and the
zero `core.Value` otherwise (no case matches, `keyValue.Value` keeps its zero
value and the entry is still stored into the slice). -/
def decodeOCAttributeValue : OCAttributeValue → OTelValue
  | .stringValue s => .str (attributeValueAsString (OCAttributeValue.stringValue s))
  | .boolValue b => .boolean b
  | .intValue n => .int64 n
  | .doubleValue q => .float64 q
  | .unrecognized => .invalid

/-- Embedding of `createOTelAttributes` (translator.go lines 53-80): `none`
models a nil `*Span_Attributes` or a nil `AttributeMap` (the function returns
a nil slice); otherwise the map, in iteration order, fills a slice of the
same length, one entry per map entry. -/
def createOTelAttributes
    (attributeMap : Option (List (String × OCAttributeValue))) :
    List (String × OTelValue) :=
  match attributeMap with
  | none => []
  | some m => m.map (fun p => (p.1, decodeOCAttributeValue p.2))

/-- The wire `Status` message: a numeric code and a message. -/
structure OCStatus where
  code : Int
  message : String
  deriving DecidableEq

/-- `codes.Code.String()` for the three-valued vocabulary. -/
def statusCodeName : StatusCode → String
  | .unset => "Unset"
  | .error => "Error"
  | .ok => "Ok"

/-- Modelled from the spec: the numeric cast of a wire status code into the
tracing status vocabulary (codes v0.14.0: Unset = 0, Error = 1, Ok = 2); the
decoder source this belongs to is not among the translator sources here. -/
def statusCodeOfInt (n : Int) : StatusCode :=
  if n = 1 then .error else if n = 2 then .ok else .unset

/-- Modelled from the spec: the status-mapping step of the wire decoder
(`OCProtoSpanToOTelSpanSnapshot`), whose source is missing here — only its
test exercises it.  Spec: StatusCode and StatusMessage are mapped from the
wire status code/message pair using the tracing status vocabulary; if the
wire status is absent, StatusCode defaults to Ok and StatusMessage to the
string form of Ok. -/
def createStatus : Option OCStatus → StatusCode × String
  | none => (StatusCode.ok, statusCodeName StatusCode.ok)
  | some st => (statusCodeOfInt st.code, st.message)

/-- Field names the encoder itself writes on some record. -/
def reservedFieldNames : List String :=
  ["service_name", "trace.trace_id", "name", "trace.span_id",
    "trace.parent_id", "duration_ms", "response.status_code", "error",
    "has_remote_parent", "status.code", "status.message", "trace.parent_name",
    "meta.annotation_type", "trace.link.trace_id", "trace.link.span_id",
    "ref_type"]

/-- Neither the exporter configuration nor the snapshot supplies a field of
its own under the given name: the name is none of the client's static or
dynamic field names, no resource attribute name, and no span attribute name.
Claims about fields the encoder itself writes are stated under this side
condition, since a user-supplied field of the same name would overwrite or
underlie them in the final record. -/
def NoUserField (c : LHClient) (d : SpanSnapshot) (k : String) : Prop :=
  k ∉ c.staticFields.map Prod.fst
    ∧ k ∉ c.dynamicFields.map Prod.fst
    ∧ k ∉ (resourceAttrList d.Resource).map Prod.fst
    ∧ k ∉ d.Attributes.map Prod.fst

instance (c : LHClient) (d : SpanSnapshot) (k : String) :
    Decidable (NoUserField c d k) := by
  unfold NoUserField; infer_instance

/-- A client with no static and no dynamic fields. -/
def emptyClient : LHClient :=
  { staticFields := [], dynamicFields := [] }

/-! Concrete inputs used to instantiate the theorems below. -/

/-- A snapshot whose end time precedes its (nonzero) start time by one
second. -/
def backwardsSnapshot : SpanSnapshot :=
  { SpanContext := { TraceID := List.replicate 16 0, SpanID := List.replicate 8 0 }
    ParentSpanID := List.replicate 8 0
    Name := "cex"
    StartTime := 2000000000
    EndTime := 1000000000
    Attributes := []
    MessageEvents := []
    Links := []
    StatusCode := .unset
    StatusMessage := ""
    HasRemoteParent := false
    DroppedLinkCount := 0
    ChildSpanCount := 0
    Resource := none }

/-- A one-second well-ordered snapshot with one unrelated span attribute. -/
def durationSnapshot : SpanSnapshot :=
  { SpanContext := { TraceID := List.replicate 16 0, SpanID := List.replicate 8 0 }
    ParentSpanID := List.replicate 8 0
    Name := "w2"
    StartTime := 1000000000
    EndTime := 2000000000
    Attributes := [("foo", .int 7)]
    MessageEvents := []
    Links := []
    StatusCode := .unset
    StatusMessage := ""
    HasRemoteParent := false
    DroppedLinkCount := 0
    ChildSpanCount := 0
    Resource := none }

/-- A snapshot with error status. -/
def errorSnapshot : SpanSnapshot :=
  { SpanContext := { TraceID := List.replicate 16 0, SpanID := List.replicate 8 0 }
    ParentSpanID := List.replicate 8 0
    Name := "w5"
    StartTime := 1
    EndTime := 2
    Attributes := []
    MessageEvents := []
    Links := []
    StatusCode := .error
    StatusMessage := "boom"
    HasRemoteParent := false
    DroppedLinkCount := 0
    ChildSpanCount := 0
    Resource := none }

/-- A snapshot with a genuine (nonzero, non-self) parent span id. -/
def parentedSnapshot : SpanSnapshot :=
  { SpanContext :=
      { TraceID := List.replicate 16 0
        SpanID := [9, 9, 9, 9, 9, 9, 9, 9] }
    ParentSpanID := [1, 2, 3, 4, 5, 6, 7, 8]
    Name := "w6"
    StartTime := 1
    EndTime := 2
    Attributes := []
    MessageEvents := []
    Links := []
    StatusCode := .ok
    StatusMessage := ""
    HasRemoteParent := false
    DroppedLinkCount := 0
    ChildSpanCount := 0
    Resource := none }

/-- A client carrying a static field "a" (the exporter-level underlay). -/
def layeredClient : LHClient :=
  { staticFields := [("a", .str "static")], dynamicFields := [] }

/-- A message event with no attributes of its own. -/
def layeredEvent : MessageEvent :=
  { Name := "ev", Time := 5, Attributes := [] }

/-- A link with no attributes of its own. -/
def layeredLink : SpanLink :=
  { SpanContext := { TraceID := List.replicate 16 3, SpanID := List.replicate 8 4 }
    Attributes := [] }

/-- A snapshot with a resource attribute "a" and a span attribute "a", plus
one message event and one link. -/
def layeredSnapshot : SpanSnapshot :=
  { SpanContext := { TraceID := List.replicate 16 0, SpanID := List.replicate 8 1 }
    ParentSpanID := List.replicate 8 0
    Name := "w8"
    StartTime := 1
    EndTime := 2
    Attributes := [("a", .str "overlay")]
    MessageEvents := [layeredEvent]
    Links := [layeredLink]
    StatusCode := .ok
    StatusMessage := ""
    HasRemoteParent := false
    DroppedLinkCount := 0
    ChildSpanCount := 0
    Resource := some [("a", .int 0)] }

/-- A concrete dynamic-field function. -/
def witnessDynFn : DynField := fun _ => FieldValue.int 2

/-- A registration sequence that uses the same name as a static and then as a
dynamic field, then registers a second static name. -/
def witnessFieldOptions : List FieldOption :=
  [.withField "a" (.int 1), .withDynamicField "a" (some witnessDynFn),
    .withField "b" (.boolean true)]

/-- The configuration `witnessFieldOptions` produces. -/
def witnessFieldConfig : exporterConfig :=
  { staticFields := [("b", .boolean true)]
    dynamicFields := [("a", witnessDynFn)] }

/-! Helper lemmas about the hex codec. -/

theorem hexDigitChar_mem (m : Nat) :
    hexDigitChar m ∈ "0123456789abcdef".toList := by
  unfold hexDigitChar
  rcases Nat.lt_or_ge m ("0123456789abcdef".toList).length with h | h
  · rw [List.getD_eq_getElem?_getD, List.getElem?_eq_getElem h]
    exact List.getElem_mem h
  · rw [List.getD_eq_default _ _ h]
    decide

theorem rawHex_length (bs : List Nat) : (rawHex bs).length = 2 * bs.length := by
  induction bs with
  | nil => rfl
  | cons b t ih => simp [rawHex, byteHex, ih]; omega

theorem rawHex_lower (bs : List Nat) :
    ∀ c ∈ rawHex bs, IsLowerHexDigit c := by
  induction bs with
  | nil => intro c hc; cases hc
  | cons b t ih =>
    intro c hc
    rcases List.mem_append.mp hc with h | h
    · simp only [byteHex, List.mem_cons, List.not_mem_nil, or_false] at h
      rcases h with h | h
      · exact h ▸ hexDigitChar_mem _
      · exact h ▸ hexDigitChar_mem _
    · exact ih c h

theorem hex016_length (n : Nat) : (hex016 n).length = 16 := by
  simp [hex016]

theorem hex016_lower (n : Nat) : ∀ c ∈ hex016 n, IsLowerHexDigit c := by
  intro c hc
  simp only [hex016, List.mem_map] at hc
  obtain ⟨i, _, hi⟩ := hc
  exact hi ▸ hexDigitChar_mem _

theorem rawHex_ne_nil (bs : List Nat) (h : bs ≠ []) : rawHex bs ≠ [] := by
  cases bs with
  | nil => exact absurd rfl h
  | cons b t => simp [rawHex, byteHex]

theorem getHoneycombTraceID_short (bs : List Nat) (h : bs.length < 8) :
    getHoneycombTraceID bs = rawHex bs := by
  unfold getHoneycombTraceID traceIDShortLength
  simp [h]

theorem getHoneycombTraceID_long_ne (bs : List Nat) (h16 : bs.length = 16)
    (hne : be64 (bs.take 8) ≠ 0) :
    getHoneycombTraceID bs
      = hex016 (be64 (bs.take 8)) ++ hex016 (be64 (bs.drop 8)) := by
  unfold getHoneycombTraceID traceIDShortLength traceIDLongLength
  rw [if_neg (by omega), if_pos h16]
  simp [hne]

theorem getHoneycombTraceID_long_zero (bs : List Nat) (h16 : bs.length = 16)
    (hzero : be64 (bs.take 8) = 0) :
    getHoneycombTraceID bs = hex016 (be64 (bs.drop 8)) := by
  unfold getHoneycombTraceID traceIDShortLength traceIDLongLength
  rw [if_neg (by omega), if_pos h16]
  simp [hzero]

theorem getHoneycombTraceID_other (bs : List Nat) (hge : 8 ≤ bs.length)
    (hne : bs.length ≠ 16) :
    getHoneycombTraceID bs = hex016 (be64 (bs.take 8)) := by
  unfold getHoneycombTraceID traceIDShortLength traceIDLongLength
  rw [if_neg (by omega), if_neg hne]

/-- C1. The identifier codec `getHoneycombTraceID` satisfies the three-branch
contract: inputs of fewer than 8 bytes are hex encoded verbatim (2 characters
per byte); a 16-byte input with nonzero big-endian high half yields the
32-character lowercase string `hex(high) ++ hex(low)` with each half
zero-padded to 16 characters, and with a zero high half the 16-character
zero-padded hex of the low 8 bytes; any other input of length at least 8
yields the 16-character zero-padded hex of the big-endian 64-bit integer
formed from its first 8 bytes.  The function is total, so no input length
panics. -/
theorem getHoneycombTraceID_contract (bs : List Nat) :
    (∀ c ∈ getHoneycombTraceID bs, IsLowerHexDigit c)
    ∧ (bs.length < 8 →
        getHoneycombTraceID bs = rawHex bs
          ∧ (getHoneycombTraceID bs).length = 2 * bs.length)
    ∧ (bs.length = 16 → be64 (bs.take 8) ≠ 0 →
        getHoneycombTraceID bs
            = hex016 (be64 (bs.take 8)) ++ hex016 (be64 (bs.drop 8))
          ∧ (getHoneycombTraceID bs).length = 32)
    ∧ (bs.length = 16 → be64 (bs.take 8) = 0 →
        getHoneycombTraceID bs = hex016 (be64 (bs.drop 8))
          ∧ (getHoneycombTraceID bs).length = 16)
    ∧ (8 ≤ bs.length → bs.length ≠ 16 →
        getHoneycombTraceID bs = hex016 (be64 (bs.take 8))
          ∧ (getHoneycombTraceID bs).length = 16) := by
  refine ⟨?_, ?_, ?_, ?_, ?_⟩
  · intro c hc
    by_cases h8 : bs.length < 8
    · rw [getHoneycombTraceID_short bs h8] at hc
      exact rawHex_lower bs c hc
    · by_cases h16 : bs.length = 16
      · by_cases hz : be64 (bs.take 8) = 0
        · rw [getHoneycombTraceID_long_zero bs h16 hz] at hc
          exact hex016_lower _ c hc
        · rw [getHoneycombTraceID_long_ne bs h16 hz] at hc
          rcases List.mem_append.mp hc with h | h
          · exact hex016_lower _ c h
          · exact hex016_lower _ c h
      · rw [getHoneycombTraceID_other bs (by omega) h16] at hc
        exact hex016_lower _ c hc
  · intro h
    refine ⟨getHoneycombTraceID_short bs h, ?_⟩
    rw [getHoneycombTraceID_short bs h]
    exact rawHex_length bs
  · intro h16 hne
    refine ⟨getHoneycombTraceID_long_ne bs h16 hne, ?_⟩
    rw [getHoneycombTraceID_long_ne bs h16 hne]
    simp [hex016_length]
  · intro h16 hzero
    exact ⟨getHoneycombTraceID_long_zero bs h16 hzero,
      by rw [getHoneycombTraceID_long_zero bs h16 hzero]; exact hex016_length _⟩
  · intro hge hne
    exact ⟨getHoneycombTraceID_other bs hge hne,
      by rw [getHoneycombTraceID_other bs hge hne]; exact hex016_length _⟩

/-- C1 witness: the contract evaluated on a concrete 16-byte id with nonzero
high half. -/
theorem getHoneycombTraceID_contract_witness :
    (([0, 0, 0, 0, 0, 0, 0, 1, 0, 0, 0, 0, 0, 0, 0, 2] : List Nat).length = 16
        ∧ be64 (([0, 0, 0, 0, 0, 0, 0, 1, 0, 0, 0, 0, 0, 0, 0, 2] :
            List Nat).take 8) ≠ 0)
    ∧ (getHoneycombTraceID [0, 0, 0, 0, 0, 0, 0, 1, 0, 0, 0, 0, 0, 0, 0, 2]
          = hex016 (be64 (([0, 0, 0, 0, 0, 0, 0, 1, 0, 0, 0, 0, 0, 0, 0, 2] :
              List Nat).take 8))
            ++ hex016 (be64 (([0, 0, 0, 0, 0, 0, 0, 1, 0, 0, 0, 0, 0, 0, 0, 2] :
              List Nat).drop 8))
        ∧ (getHoneycombTraceID
            [0, 0, 0, 0, 0, 0, 0, 1, 0, 0, 0, 0, 0, 0, 0, 2]).length = 32) :=
  ⟨⟨by decide, by decide⟩,
    (getHoneycombTraceID_contract _).2.2.1 (by decide) (by decide)⟩

/-! Helper lemmas about field lookup on events. -/

theorem optOr_none {α : Type} (x : Option α) : x.or none = x := by
  cases x <;> rfl

theorem none_optOr {α : Type} (x : Option α) : Option.or none x = x := rfl

theorem some_optOr {α : Type} (a : α) (x : Option α) :
    Option.or (some a) x = some a := rfl

theorem findLast_append {α : Type} (k : String) (l1 l2 : List (String × α)) :
    findLast k (l1 ++ l2) = (findLast k l2).or (findLast k l1) := by
  induction l1 with
  | nil => cases h : findLast k l2 <;> simp [findLast, Option.or, h]
  | cons p t ih =>
    cases h2 : findLast k l2 <;> cases ht : findLast k t <;>
      simp [findLast, ih, h2, ht, Option.or]

theorem findLast_eq_none {α : Type} (k : String) (l : List (String × α))
    (h : k ∉ l.map Prod.fst) : findLast k l = none := by
  induction l with
  | nil => rfl
  | cons p t ih =>
    simp only [List.map_cons, List.mem_cons, not_or] at h
    simp only [findLast, ih h.2]
    exact if_neg (fun hh => h.1 hh.symm)

theorem findLast_singleton {α : Type} (k k1 : String) (v : α) :
    findLast k [(k1, v)] = if k1 = k then some v else none := by
  simp [findLast]

theorem findLast_newEvent (c : LHClient) (k : String)
    (h1 : k ∉ c.staticFields.map Prod.fst)
    (h2 : k ∉ c.dynamicFields.map Prod.fst) :
    findLast k c.newEvent.fields = none := by
  apply findLast_eq_none
  have hmap : (c.dynamicFields.map (fun p => (p.1, p.2 ()))).map Prod.fst
      = c.dynamicFields.map Prod.fst := by
    rw [List.map_map]; rfl
  simp only [LHClient.newEvent, List.map_append, List.mem_append, not_or, hmap]
  exact ⟨h1, h2⟩

theorem findLast_resourceServiceFields_none (serviceName : String)
    (res : Option (List (String × FieldValue))) (k : String)
    (h : k ∉ (resourceAttrList res).map Prod.fst) (hk : k ≠ "service_name") :
    findLast k (resourceServiceFields serviceName res) = none := by
  unfold resourceServiceFields
  rw [findLast_append, findLast_eq_none k _ h, optOr_none]
  by_cases hs : serviceName = ""
  · simp [hs, findLast]
  · rw [if_neg hs, findLast_singleton, if_neg (Ne.symm hk)]

theorem findLast_resourceServiceFields_some (serviceName : String)
    (res : Option (List (String × FieldValue))) (k : String) (v : FieldValue)
    (h : findLast k (resourceAttrList res) = some v) (hk : k ≠ "service_name") :
    findLast k (resourceServiceFields serviceName res) = some v := by
  unfold resourceServiceFields
  rw [findLast_append, h]
  by_cases hs : serviceName = ""
  · simp [hs, findLast, Option.or]
  · rw [if_neg hs, findLast_singleton, if_neg (Ne.symm hk), none_optOr]

theorem applyResourceAttributes_fields (serviceName : String)
    (res : Option (List (String × FieldValue))) (ev : LHEvent) :
    (applyResourceAttributes serviceName res ev).fields
      = ev.fields ++ resourceServiceFields serviceName res := by
  unfold applyResourceAttributes resourceServiceFields resourceAttrList
    transcribeAttributesTo addFields addField
  cases res <;> by_cases hs : serviceName = "" <;> simp [hs]

theorem applyResourceAttributes_timestamp (serviceName : String)
    (res : Option (List (String × FieldValue))) (ev : LHEvent) :
    (applyResourceAttributes serviceName res ev).timestamp = ev.timestamp := by
  unfold applyResourceAttributes transcribeAttributesTo addFields addField
  cases res <;> by_cases hs : serviceName = "" <;> simp [hs]

theorem transcribeLayeredAttributesTo_fields (serviceName : String)
    (res : Option (List (String × FieldValue))) (ev : LHEvent)
    (attrs : List (String × FieldValue)) :
    (transcribeLayeredAttributesTo serviceName res ev attrs).fields
      = ev.fields ++ resourceServiceFields serviceName res ++ attrs := by
  unfold transcribeLayeredAttributesTo transcribeAttributesTo addFields
  rw [applyResourceAttributes_fields]

theorem transcribeLayeredAttributesTo_timestamp (serviceName : String)
    (res : Option (List (String × FieldValue))) (ev : LHEvent)
    (attrs : List (String × FieldValue)) :
    (transcribeLayeredAttributesTo serviceName res ev attrs).timestamp
      = ev.timestamp := by
  unfold transcribeLayeredAttributesTo transcribeAttributesTo addFields
  rw [applyResourceAttributes_timestamp]

theorem mkPrimaryEvent_fields (c : LHClient) (sn : String) (d : SpanSnapshot) :
    (mkPrimaryEvent c sn d).fields
      = c.newEvent.fields ++ resourceServiceFields sn d.Resource
        ++ hcSpanFields (honeycombSpan d) ++ d.Attributes
        ++ [("status.code", .int d.StatusCode.toInt)]
        ++ [("status.message", .str d.StatusMessage)] := by
  unfold mkPrimaryEvent addFields addField
  simp [applyResourceAttributes_fields]

theorem mkPrimaryEvent_timestamp (c : LHClient) (sn : String)
    (d : SpanSnapshot) :
    (mkPrimaryEvent c sn d).timestamp = some d.StartTime := by
  unfold mkPrimaryEvent addFields addField
  simp

theorem mkMessageEventRecord_fields (c : LHClient) (sn : String)
    (d : SpanSnapshot) (a : MessageEvent) :
    (mkMessageEventRecord c sn d a).fields
      = c.newEvent.fields ++ resourceServiceFields sn d.Resource
        ++ a.Attributes ++ spanEventFields d a := by
  unfold mkMessageEventRecord addFields
  simp [transcribeLayeredAttributesTo_fields]

theorem mkMessageEventRecord_timestamp (c : LHClient) (sn : String)
    (d : SpanSnapshot) (a : MessageEvent) :
    (mkMessageEventRecord c sn d a).timestamp = some a.Time := by
  unfold mkMessageEventRecord addFields
  simp

theorem mkLinkRecord_fields (c : LHClient) (sn : String) (d : SpanSnapshot)
    (l : SpanLink) :
    (mkLinkRecord c sn d l).fields
      = c.newEvent.fields ++ resourceServiceFields sn d.Resource
        ++ l.Attributes ++ linkFields d l := by
  unfold mkLinkRecord addFields
  simp [transcribeLayeredAttributesTo_fields]

theorem mkLinkRecord_timestamp (c : LHClient) (sn : String) (d : SpanSnapshot)
    (l : SpanLink) :
    (mkLinkRecord c sn d l).timestamp = none := by
  unfold mkLinkRecord addFields
  rw [transcribeLayeredAttributesTo_timestamp]
  rfl

theorem lookupField_mkPrimaryEvent_chain (c : LHClient) (sn : String)
    (d : SpanSnapshot) (k : String) :
    lookupField (mkPrimaryEvent c sn d) k
      = ((findLast k [("status.message", FieldValue.str d.StatusMessage)]).or
          ((findLast k [("status.code", FieldValue.int d.StatusCode.toInt)]).or
            ((findLast k d.Attributes).or
              ((findLast k (hcSpanFields (honeycombSpan d))).or
                ((findLast k (resourceServiceFields sn d.Resource)).or
                  (findLast k c.newEvent.fields)))))) := by
  unfold lookupField
  rw [mkPrimaryEvent_fields, findLast_append, findLast_append, findLast_append,
    findLast_append, findLast_append]

theorem lookupField_mkMessageEventRecord_chain (c : LHClient) (sn : String)
    (d : SpanSnapshot) (a : MessageEvent) (k : String) :
    lookupField (mkMessageEventRecord c sn d a) k
      = ((findLast k (spanEventFields d a)).or
          ((findLast k a.Attributes).or
            ((findLast k (resourceServiceFields sn d.Resource)).or
              (findLast k c.newEvent.fields)))) := by
  unfold lookupField
  rw [mkMessageEventRecord_fields, findLast_append, findLast_append,
    findLast_append]

theorem lookupField_mkLinkRecord_chain (c : LHClient) (sn : String)
    (d : SpanSnapshot) (l : SpanLink) (k : String) :
    lookupField (mkLinkRecord c sn d l) k
      = ((findLast k (linkFields d l)).or
          ((findLast k l.Attributes).or
            ((findLast k (resourceServiceFields sn d.Resource)).or
              (findLast k c.newEvent.fields)))) := by
  unfold lookupField
  rw [mkLinkRecord_fields, findLast_append, findLast_append, findLast_append]

theorem honeycombSpan_DurationMilli (s : SpanSnapshot) :
    (honeycombSpan s).DurationMilli
      = if ¬ s.StartTime = 0 ∧ ¬ s.EndTime = 0 then
          ((s.EndTime - s.StartTime : Int) : ℚ) / 1000000
        else 0 := rfl

theorem honeycombSpan_Error (s : SpanSnapshot) :
    (honeycombSpan s).Error = decide (s.StatusCode = StatusCode.error) := rfl

theorem honeycombSpan_ParentID (s : SpanSnapshot) :
    (honeycombSpan s).ParentID
      = if s.ParentSpanID ≠ s.SpanContext.SpanID ∧ s.ParentSpanID ≠ zeroSpanID
        then (⟨rawHex s.ParentSpanID⟩ : String)
        else "" := rfl

theorem findLast_hcSpanFields_duration (hc : span) :
    findLast "duration_ms" (hcSpanFields hc)
      = some (.float hc.DurationMilli) := by
  unfold hcSpanFields
  split_ifs <;> simp [findLast_append, findLast, Option.or]

theorem findLast_hcSpanFields_error (hc : span) :
    findLast "error" (hcSpanFields hc)
      = if hc.Error then some (.boolean true) else none := by
  unfold hcSpanFields
  split_ifs <;> simp_all [findLast_append, findLast, Option.or]

theorem findLast_hcSpanFields_parent (hc : span) :
    findLast "trace.parent_id" (hcSpanFields hc)
      = if hc.ParentID = "" then none else some (.str hc.ParentID) := by
  unfold hcSpanFields
  split_ifs <;> simp_all [findLast_append, findLast, Option.or]

theorem findLast_hcSpanFields_none (hc : span) (k : String)
    (n1 : k ≠ "trace.trace_id") (n2 : k ≠ "name") (n3 : k ≠ "trace.span_id")
    (n4 : k ≠ "trace.parent_id") (n5 : k ≠ "duration_ms")
    (n6 : k ≠ "response.status_code") (n7 : k ≠ "error")
    (n8 : k ≠ "has_remote_parent") :
    findLast k (hcSpanFields hc) = none := by
  unfold hcSpanFields
  split_ifs <;>
    simp [findLast_append, findLast, Option.or, Ne.symm n1, Ne.symm n2,
      Ne.symm n3, Ne.symm n4, Ne.symm n5, Ne.symm n6, Ne.symm n7, Ne.symm n8]

theorem findLast_spanEventFields_none (d : SpanSnapshot) (a : MessageEvent)
    (k : String) (n1 : k ≠ "name") (n2 : k ≠ "trace.trace_id")
    (n3 : k ≠ "trace.parent_id") (n4 : k ≠ "trace.parent_name")
    (n5 : k ≠ "meta.annotation_type") :
    findLast k (spanEventFields d a) = none := by
  unfold spanEventFields
  split_ifs <;>
    simp [findLast_append, findLast, Option.or, Ne.symm n1, Ne.symm n2,
      Ne.symm n3, Ne.symm n4, Ne.symm n5]

theorem findLast_linkFields_none (d : SpanSnapshot) (l : SpanLink)
    (k : String) (n1 : k ≠ "trace.trace_id") (n2 : k ≠ "trace.parent_id")
    (n3 : k ≠ "trace.link.trace_id") (n4 : k ≠ "trace.link.span_id")
    (n5 : k ≠ "meta.annotation_type") :
    findLast k (linkFields d l) = none := by
  unfold linkFields
  split_ifs <;>
    simp [findLast_append, findLast, Option.or, Ne.symm n1, Ne.symm n2,
      Ne.symm n3, Ne.symm n4, Ne.symm n5]

/-- C7. One emission call for a snapshot with N message events and M links
produces exactly 1 + N + M outbound records: one record per message event in
snapshot order, one per link in snapshot order, and one primary span record
(sent last). -/
theorem exportSpan_record_count (c : LHClient) (sn : String)
    (d : SpanSnapshot) :
    exportSpan c sn d
        = d.MessageEvents.map (mkMessageEventRecord c sn d)
          ++ d.Links.map (mkLinkRecord c sn d)
          ++ [mkPrimaryEvent c sn d]
    ∧ (exportSpan c sn d).length
        = 1 + d.MessageEvents.length + d.Links.length := by
  refine ⟨rfl, ?_⟩
  simp [exportSpan]
  omega

/-- C10. The emitted link records never get a timestamp assigned (they keep
the default), while the primary record's timestamp is the snapshot's
StartTime and each message-event record's timestamp is that event's own
time. -/
theorem link_records_keep_default_timestamp (c : LHClient) (sn : String)
    (d : SpanSnapshot) :
    (mkPrimaryEvent c sn d).timestamp = some d.StartTime
    ∧ (∀ a : MessageEvent,
        (mkMessageEventRecord c sn d a).timestamp = some a.Time)
    ∧ (∀ l : SpanLink, (mkLinkRecord c sn d l).timestamp = none) :=
  ⟨mkPrimaryEvent_timestamp c sn d,
    fun a => mkMessageEventRecord_timestamp c sn d a,
    fun l => mkLinkRecord_timestamp c sn d l⟩

/-- C2 counterexample: the claim says `duration_ms` is never negative, but
for a snapshot whose nonzero end time precedes its nonzero start time the
code computes a negative duration (no clamping). -/
theorem duration_ms_negative_counterexample :
    lookupField (mkPrimaryEvent emptyClient "" backwardsSnapshot)
        "duration_ms" = some (.float (-1000))
    ∧ (honeycombSpan backwardsSnapshot).DurationMilli < 0 := by
  have hdur : (honeycombSpan backwardsSnapshot).DurationMilli = -1000 := by
    rw [honeycombSpan_DurationMilli, if_pos (by decide)]
    show ((1000000000 - 2000000000 : Int) : ℚ) / 1000000 = -1000
    norm_num
  refine ⟨?_, ?_⟩
  · rw [lookupField_mkPrimaryEvent_chain,
      findLast_eq_none _ _
        (by decide :
          "duration_ms" ∉ backwardsSnapshot.Attributes.map Prod.fst),
      findLast_hcSpanFields_duration, hdur]
    simp [findLast, Option.or]
  · rw [hdur]
    norm_num

/-- C2 as amended: `duration_ms` on the primary record is the value computed
by `honeycombSpan`; that value is `(EndTime - StartTime)` in milliseconds
when both timestamps are nonzero, is exactly 0 whenever either timestamp is
the zero value or the two are equal, and is nonnegative whenever
EndTime ≥ StartTime — but it is not clamped, so it is negative when a
nonzero EndTime precedes a nonzero StartTime. -/
theorem duration_ms_amended (c : LHClient) (sn : String) (d : SpanSnapshot)
    (hattr : "duration_ms" ∉ d.Attributes.map Prod.fst) :
    lookupField (mkPrimaryEvent c sn d) "duration_ms"
        = some (.float (honeycombSpan d).DurationMilli)
    ∧ (¬ d.StartTime = 0 → ¬ d.EndTime = 0 →
        (honeycombSpan d).DurationMilli
          = ((d.EndTime - d.StartTime : Int) : ℚ) / 1000000)
    ∧ ((d.StartTime = 0 ∨ d.EndTime = 0) →
        (honeycombSpan d).DurationMilli = 0)
    ∧ (d.StartTime = d.EndTime → (honeycombSpan d).DurationMilli = 0)
    ∧ (d.StartTime ≤ d.EndTime → 0 ≤ (honeycombSpan d).DurationMilli) := by
  refine ⟨?_, ?_, ?_, ?_, ?_⟩
  · rw [lookupField_mkPrimaryEvent_chain, findLast_eq_none _ _ hattr,
      findLast_hcSpanFields_duration]
    simp [findLast, Option.or]
  · intro hs he
    rw [honeycombSpan_DurationMilli, if_pos ⟨hs, he⟩]
  · intro h
    rw [honeycombSpan_DurationMilli, if_neg]
    rcases h with h | h <;> simp [h]
  · intro h
    rw [honeycombSpan_DurationMilli]
    split_ifs with hc
    · rw [h]
      simp
    · rfl
  · intro h
    rw [honeycombSpan_DurationMilli]
    split_ifs with hc
    · have hnum : (0 : ℚ) ≤ ((d.EndTime - d.StartTime : Int) : ℚ) := by
        exact_mod_cast Int.sub_nonneg.mpr h
      exact div_nonneg hnum (by norm_num)
    · exact le_refl 0

/-- C5. The primary record carries `error = true` exactly when the
snapshot's StatusCode is Error; for any other status the `error` field is
absent (it is never emitted as false). -/
theorem error_flag_iff_error_status (c : LHClient) (sn : String)
    (d : SpanSnapshot) (h : NoUserField c d "error") :
    (d.StatusCode = StatusCode.error →
        lookupField (mkPrimaryEvent c sn d) "error" = some (.boolean true))
    ∧ (d.StatusCode ≠ StatusCode.error →
        lookupField (mkPrimaryEvent c sn d) "error" = none) := by
  obtain ⟨h1, h2, h3, h4⟩ := h
  constructor
  · intro hst
    rw [lookupField_mkPrimaryEvent_chain, findLast_eq_none _ _ h4,
      findLast_hcSpanFields_error]
    simp [honeycombSpan_Error, hst, findLast, Option.or]
  · intro hst
    rw [lookupField_mkPrimaryEvent_chain, findLast_eq_none _ _ h4,
      findLast_hcSpanFields_error, findLast_newEvent c _ h1 h2,
      findLast_resourceServiceFields_none sn _ _ h3 (by decide)]
    simp [honeycombSpan_Error, hst, findLast, Option.or]

/-- C5 witness: the error flag on a concrete snapshot with Error status. -/
theorem error_flag_iff_error_status_witness :
    (NoUserField emptyClient errorSnapshot "error"
      ∧ errorSnapshot.StatusCode = StatusCode.error)
    ∧ lookupField (mkPrimaryEvent emptyClient "svc" errorSnapshot) "error"
        = some (.boolean true) :=
  ⟨⟨by decide, rfl⟩,
    (error_flag_iff_error_status emptyClient "svc" errorSnapshot
      (by decide)).1 rfl⟩

/-- C6. The primary record omits `trace.parent_id` exactly when ParentSpanID
is all-zero or equal to the span's own SpanID; otherwise the field is
present and equals the hex encoding of ParentSpanID.  (A Go ParentSpanID is
an `[8]byte`, hence the length hypothesis.) -/
theorem parent_id_omission (c : LHClient) (sn : String) (d : SpanSnapshot)
    (h : NoUserField c d "trace.parent_id")
    (hp8 : d.ParentSpanID.length = 8) :
    ((d.ParentSpanID = zeroSpanID ∨ d.ParentSpanID = d.SpanContext.SpanID) →
        lookupField (mkPrimaryEvent c sn d) "trace.parent_id" = none)
    ∧ (d.ParentSpanID ≠ zeroSpanID → d.ParentSpanID ≠ d.SpanContext.SpanID →
        lookupField (mkPrimaryEvent c sn d) "trace.parent_id"
          = some (.str ⟨rawHex d.ParentSpanID⟩)) := by
  obtain ⟨h1, h2, h3, h4⟩ := h
  constructor
  · intro hcond
    rw [lookupField_mkPrimaryEvent_chain, findLast_eq_none _ _ h4,
      findLast_hcSpanFields_parent, findLast_newEvent c _ h1 h2,
      findLast_resourceServiceFields_none sn _ _ h3 (by decide)]
    have hpid : (honeycombSpan d).ParentID = "" := by
      rw [honeycombSpan_ParentID, if_neg]
      rcases hcond with hh | hh
      · exact fun hand => hand.2 hh
      · exact fun hand => hand.1 hh
    rw [hpid]
    simp [findLast, Option.or]
  · intro hz hself
    rw [lookupField_mkPrimaryEvent_chain, findLast_eq_none _ _ h4,
      findLast_hcSpanFields_parent]
    have hpid : (honeycombSpan d).ParentID = ⟨rawHex d.ParentSpanID⟩ := by
      rw [honeycombSpan_ParentID, if_pos ⟨hself, hz⟩]
    rw [hpid]
    have hne : (⟨rawHex d.ParentSpanID⟩ : String) ≠ "" := by
      intro hh
      have hdata : rawHex d.ParentSpanID = [] := congrArg String.data hh
      refine rawHex_ne_nil d.ParentSpanID ?_ hdata
      intro hnil
      rw [hnil] at hp8
      simp at hp8
    rw [if_neg hne]
    simp [findLast, Option.or]

/-- C6 witness: a concrete snapshot with a genuine parent id. -/
theorem parent_id_omission_witness :
    (NoUserField emptyClient parentedSnapshot "trace.parent_id"
      ∧ parentedSnapshot.ParentSpanID.length = 8
      ∧ parentedSnapshot.ParentSpanID ≠ zeroSpanID
      ∧ parentedSnapshot.ParentSpanID ≠ parentedSnapshot.SpanContext.SpanID)
    ∧ lookupField (mkPrimaryEvent emptyClient "svc" parentedSnapshot)
        "trace.parent_id"
        = some (.str ⟨rawHex parentedSnapshot.ParentSpanID⟩) :=
  ⟨⟨by decide, by decide, by decide, by decide⟩,
    (parent_id_omission emptyClient "svc" parentedSnapshot (by decide)
      (by decide)).2 (by decide) (by decide)⟩

/-- C8. Field layering: with a resource attribute, an exporter static field
and a span attribute all sharing one (non-reserved) name, the primary record
ends up with the span attribute's value, while message-event and link
records of the same snapshot (whose own attributes do not use the name)
carry the resource value layered over the static field — never the
span-level value: event and link records do not inherit primary-span
attributes. -/
theorem field_layering_precedence (c : LHClient) (sn : String)
    (d : SpanSnapshot) (a : String) (vr vs vo : FieldValue)
    (hres : findLast a (resourceAttrList d.Resource) = some vr)
    (_hstatic : findLast a c.staticFields = some vs)
    (_hdyn : a ∉ c.dynamicFields.map Prod.fst)
    (hspan : findLast a d.Attributes = some vo)
    (hname : a ∉ reservedFieldNames) :
    lookupField (mkPrimaryEvent c sn d) a = some vo
    ∧ (∀ ev : MessageEvent, a ∉ ev.Attributes.map Prod.fst →
        lookupField (mkMessageEventRecord c sn d ev) a = some vr)
    ∧ (∀ l : SpanLink, a ∉ l.Attributes.map Prod.fst →
        lookupField (mkLinkRecord c sn d l) a = some vr) := by
  simp only [reservedFieldNames, List.mem_cons, List.not_mem_nil, or_false,
    not_or] at hname
  obtain ⟨ne1, ne2, ne3, ne4, ne5, ne6, ne7, ne8, ne9, ne10, ne11, ne12,
    ne13, ne14, ne15, ne16⟩ := hname
  refine ⟨?_, ?_, ?_⟩
  · rw [lookupField_mkPrimaryEvent_chain, hspan, findLast_singleton,
      findLast_singleton, if_neg (Ne.symm ne11), if_neg (Ne.symm ne10)]
    rfl
  · intro ev hev
    rw [lookupField_mkMessageEventRecord_chain,
      findLast_spanEventFields_none d ev a ne3 ne2 ne5 ne12 ne13,
      findLast_eq_none _ _ hev,
      findLast_resourceServiceFields_some sn _ _ _ hres ne1]
    rfl
  · intro l hl
    rw [lookupField_mkLinkRecord_chain,
      findLast_linkFields_none d l a ne2 ne5 ne14 ne15 ne13,
      findLast_eq_none _ _ hl,
      findLast_resourceServiceFields_some sn _ _ _ hres ne1]
    rfl

/-- C8 witness: layering evaluated on concrete inputs — the primary record
gets the span overlay and the event/link records get the resource value. -/
theorem field_layering_precedence_witness :
    (findLast "a" (resourceAttrList layeredSnapshot.Resource) = some (.int 0)
      ∧ findLast "a" layeredClient.staticFields = some (.str "static")
      ∧ "a" ∉ layeredClient.dynamicFields.map Prod.fst
      ∧ findLast "a" layeredSnapshot.Attributes = some (.str "overlay")
      ∧ "a" ∉ reservedFieldNames)
    ∧ lookupField (mkPrimaryEvent layeredClient "svc" layeredSnapshot) "a"
        = some (.str "overlay")
    ∧ lookupField
        (mkMessageEventRecord layeredClient "svc" layeredSnapshot layeredEvent)
        "a" = some (.int 0)
    ∧ lookupField
        (mkLinkRecord layeredClient "svc" layeredSnapshot layeredLink) "a"
        = some (.int 0) :=
  ⟨⟨by decide, by decide, by decide, by decide, by decide⟩,
    (field_layering_precedence layeredClient "svc" layeredSnapshot "a"
      (.int 0) (.str "static") (.str "overlay") (by decide) (by decide)
      (by decide) (by decide) (by decide)).1,
    (field_layering_precedence layeredClient "svc" layeredSnapshot "a"
      (.int 0) (.str "static") (.str "overlay") (by decide) (by decide)
      (by decide) (by decide) (by decide)).2.1 layeredEvent (by decide),
    (field_layering_precedence layeredClient "svc" layeredSnapshot "a"
      (.int 0) (.str "static") (.str "overlay") (by decide) (by decide)
      (by decide) (by decide) (by decide)).2.2 layeredLink (by decide)⟩

theorem keysOf_removeFieldEntry {α : Type} (l : List (String × α))
    (k n : String) :
    n ∈ keysOf (removeFieldEntry l k) ↔ n ∈ keysOf l ∧ n ≠ k := by
  unfold removeFieldEntry keysOf
  simp only [List.mem_map, List.mem_filter, decide_eq_true_eq]
  constructor
  · rintro ⟨p, ⟨hp, hpk⟩, he⟩
    exact ⟨⟨p, hp, he⟩, he ▸ hpk⟩
  · rintro ⟨⟨p, hp, he⟩, hnk⟩
    exact ⟨p, ⟨hp, he ▸ hnk⟩, he⟩

theorem keysOf_insertFieldEntry {α : Type} (l : List (String × α))
    (k : String) (v : α) (n : String) :
    n ∈ keysOf (insertFieldEntry l k v) ↔ (n ∈ keysOf l ∧ n ≠ k) ∨ n = k := by
  unfold insertFieldEntry
  have happ : keysOf (removeFieldEntry l k ++ [(k, v)])
      = keysOf (removeFieldEntry l k) ++ [k] := by
    unfold keysOf
    simp
  rw [happ, List.mem_append, keysOf_removeFieldEntry]
  simp

theorem findLast_insertFieldEntry_self {α : Type} (l : List (String × α))
    (k : String) (v : α) :
    findLast k (insertFieldEntry l k v) = some v := by
  unfold insertFieldEntry
  rw [findLast_append, findLast_singleton, if_pos rfl, some_optOr]

theorem not_mem_keysOf_removeFieldEntry {α : Type} (l : List (String × α))
    (k : String) : k ∉ keysOf (removeFieldEntry l k) := by
  rw [keysOf_removeFieldEntry]
  rintro ⟨_, hk⟩
  exact hk rfl

theorem pairDisjoint_insert_remove {α β : Type} (s : List (String × α))
    (d : List (String × β)) (k : String) (v : α) (h : pairDisjoint s d) :
    pairDisjoint (insertFieldEntry s k v) (removeFieldEntry d k) := by
  intro n hn hnd
  rw [keysOf_removeFieldEntry] at hnd
  rcases (keysOf_insertFieldEntry s k v n).mp hn with ⟨hns, _⟩ | rfl
  · exact h n hns hnd.1
  · exact hnd.2 rfl

theorem pairDisjoint_remove_insert {α β : Type} (s : List (String × α))
    (d : List (String × β)) (k : String) (v : β) (h : pairDisjoint s d) :
    pairDisjoint (removeFieldEntry s k) (insertFieldEntry d k v) := by
  intro n hn hnd
  rw [keysOf_removeFieldEntry] at hn
  rcases (keysOf_insertFieldEntry d k v n).mp hnd with ⟨hnd2, _⟩ | rfl
  · exact h n hn.1 hnd2
  · exact hn.2 rfl

theorem pairDisjoint_remove_left {α β : Type} (s : List (String × α))
    (d : List (String × β)) (k : String) (h : pairDisjoint s d) :
    pairDisjoint (removeFieldEntry s k) d :=
  fun n hn => h n ((keysOf_removeFieldEntry s k n).mp hn).1

theorem pairDisjoint_foldl_static (m : List (String × FieldValue)) :
    ∀ (s : List (String × FieldValue)) (d : List (String × DynField)),
      pairDisjoint s d →
      pairDisjoint (m.foldl (fun l p => insertFieldEntry l p.1 p.2) s)
        (m.foldl (fun l p => removeFieldEntry l p.1) d) := by
  induction m with
  | nil => exact fun s d h => h
  | cons p t ih =>
    intro s d h
    exact ih _ _ (pairDisjoint_insert_remove s d p.1 p.2 h)

theorem pairDisjoint_foldl_dynamic (m : List (String × Option DynField)) :
    ∀ (s : List (String × FieldValue)) (d : List (String × DynField)),
      pairDisjoint s d →
      pairDisjoint (m.foldl (fun l p => removeFieldEntry l p.1) s)
        (m.foldl
          (fun l p =>
            match p.2 with
            | some fn => insertFieldEntry l p.1 fn
            | none => l)
          d) := by
  induction m with
  | nil => exact fun s d h => h
  | cons p t ih =>
    intro s d h
    rcases p with ⟨k, _ | fn⟩
    · exact ih _ _ (pairDisjoint_remove_left s d k h)
    · exact ih _ _ (pairDisjoint_remove_insert s d k fn h)

theorem applyFieldOption_disjoint (c : exporterConfig) (o : FieldOption)
    (c2 : exporterConfig) (h : applyFieldOption c o = some c2)
    (hd : FieldSetsDisjoint c) : FieldSetsDisjoint c2 := by
  cases o with
  | withField name value =>
    simp only [applyFieldOption] at h
    split at h
    · cases h
    · cases h
      exact pairDisjoint_insert_remove _ _ _ _ hd
  | withFields m =>
    simp only [applyFieldOption] at h
    split at h
    · cases h
    · cases h
      exact pairDisjoint_foldl_static m _ _ hd
  | withDynamicField name f =>
    simp only [applyFieldOption] at h
    split at h
    · cases h
    · cases f with
      | none => cases h
      | some fn =>
        cases h
        exact pairDisjoint_remove_insert _ _ _ _ hd
  | withDynamicFields m =>
    simp only [applyFieldOption] at h
    split at h
    · cases h
    · cases h
      exact pairDisjoint_foldl_dynamic m _ _ hd

theorem runFieldOptions_disjoint (ops : List FieldOption) :
    ∀ (c c2 : exporterConfig), runFieldOptions c ops = some c2 →
      FieldSetsDisjoint c → FieldSetsDisjoint c2 := by
  induction ops with
  | nil =>
    intro c c2 h hd
    cases h
    exact hd
  | cons o t ih =>
    intro c c2 h hd
    unfold runFieldOptions at h
    cases ha : applyFieldOption c o with
    | none => rw [ha] at h; cases h
    | some cm =>
      rw [ha] at h
      exact ih cm c2 h (applyFieldOption_disjoint c o cm ha hd)

/-- C9. The exporter field-set invariant: after any sequence of field
registrations that `NewExporter` accepts, a name appears in at most one of
the static and dynamic mappings; moreover registering a name as one kind
installs it there and removes any entry of the other kind, whatever the
prior state was — so the last registration wins regardless of the order in
which the two kinds were used. -/
theorem exporter_field_set_invariant :
    (∀ (ops : List FieldOption) (c : exporterConfig),
        runFieldOptions emptyExporterConfig ops = some c →
          FieldSetsDisjoint c)
    ∧ (∀ (cfg : exporterConfig) (k : String) (v : FieldValue)
          (cfg2 : exporterConfig),
        applyFieldOption cfg (.withField k v) = some cfg2 →
          findLast k cfg2.staticFields = some v
            ∧ k ∉ keysOf cfg2.dynamicFields)
    ∧ (∀ (cfg : exporterConfig) (k : String) (f : DynField)
          (cfg2 : exporterConfig),
        applyFieldOption cfg (.withDynamicField k (some f)) = some cfg2 →
          k ∈ keysOf cfg2.dynamicFields
            ∧ findLast k cfg2.staticFields = none) := by
  refine ⟨?_, ?_, ?_⟩
  · intro ops c h
    refine runFieldOptions_disjoint ops emptyExporterConfig c h ?_
    intro n hn
    simp [emptyExporterConfig, keysOf] at hn
  · intro cfg k v cfg2 h
    simp only [applyFieldOption] at h
    split at h
    · cases h
    · cases h
      exact ⟨findLast_insertFieldEntry_self _ k v,
        not_mem_keysOf_removeFieldEntry _ k⟩
  · intro cfg k f cfg2 h
    simp only [applyFieldOption] at h
    split at h
    · cases h
    · cases h
      refine ⟨(keysOf_insertFieldEntry _ k f k).mpr (Or.inr rfl), ?_⟩
      exact findLast_eq_none k _ (not_mem_keysOf_removeFieldEntry _ k)

/-- C9 witness: a concrete registration sequence that reuses one name as a
static and then as a dynamic field. -/
theorem exporter_field_set_invariant_witness :
    runFieldOptions emptyExporterConfig witnessFieldOptions
        = some witnessFieldConfig
    ∧ FieldSetsDisjoint witnessFieldConfig :=
  ⟨rfl,
    exporter_field_set_invariant.1 witnessFieldOptions witnessFieldConfig rfl⟩

/-- C2 witness: the amended theorem evaluated on a concrete snapshot. -/
theorem duration_ms_amended_witness :
    ("duration_ms" ∉ durationSnapshot.Attributes.map Prod.fst)
    ∧ lookupField (mkPrimaryEvent emptyClient "svc" durationSnapshot)
        "duration_ms" = some (.float (honeycombSpan durationSnapshot).DurationMilli) :=
  ⟨by decide, (duration_ms_amended emptyClient "svc" durationSnapshot (by decide)).1⟩

/-- C3 counterexample: the claim says a wire attribute carrying none of the
four recognized variants is silently dropped, but `createOTelAttributes`
(translator.go lines 53-80) has no default case in its switch and still
stores the entry, leaving the zero (invalid) value: the output keeps the
entry's key paired with the zero value rather than dropping it. -/
theorem attribute_unrecognized_not_dropped :
    createOTelAttributes (some [("good", .intValue 7), ("bad", .unrecognized)])
        = [("good", .int64 7), ("bad", .invalid)]
    ∧ ("bad", OTelValue.invalid)
        ∈ createOTelAttributes
            (some [("good", .intValue 7), ("bad", .unrecognized)])
    ∧ (createOTelAttributes
        (some [("good", .intValue 7), ("bad", .unrecognized)])).length = 2 :=
  ⟨rfl, by decide, rfl⟩

/-- C3 as amended: decoding never drops an entry and never errors — the
output has one attribute per wire map entry; recognized variants decode to
the matching scalar, and an entry with an unrecognized variant is kept as an
attribute with its key and the zero (invalid) value. -/
theorem attribute_decode_amended (m : List (String × OCAttributeValue)) :
    (createOTelAttributes (some m)).length = m.length
    ∧ createOTelAttributes none = []
    ∧ (∀ k v, (k, v) ∈ m →
        (k, decodeOCAttributeValue v) ∈ createOTelAttributes (some m))
    ∧ (∀ k, (k, OCAttributeValue.unrecognized) ∈ m →
        (k, OTelValue.invalid) ∈ createOTelAttributes (some m)) := by
  refine ⟨?_, rfl, ?_, ?_⟩
  · simp [createOTelAttributes]
  · intro k v hkv
    simp only [createOTelAttributes]
    exact List.mem_map.mpr ⟨(k, v), hkv, rfl⟩
  · intro k hk
    simp only [createOTelAttributes]
    exact List.mem_map.mpr ⟨(k, .unrecognized), hk, rfl⟩

/-- C3 witness: the amended decoding behavior on a concrete one-entry map. -/
theorem attribute_decode_amended_witness :
    (("x", OCAttributeValue.unrecognized)
        ∈ ([("x", OCAttributeValue.unrecognized)] :
            List (String × OCAttributeValue)))
    ∧ ("x", OTelValue.invalid)
        ∈ createOTelAttributes (some [("x", OCAttributeValue.unrecognized)]) :=
  ⟨by decide,
    (attribute_decode_amended [("x", OCAttributeValue.unrecognized)]).2.2.2
      "x" (by decide)⟩

/-- C4 (status mapping modelled from the spec, its source being absent from
the translator files here): when the wire status is absent the decoded
StatusCode is Ok and the StatusMessage is the string form of Ok; when
present, the code/message pair is mapped through the three-valued
{Unset, Ok, Error} status vocabulary. -/
theorem status_default_and_mapping :
    createStatus none = (StatusCode.ok, statusCodeName StatusCode.ok)
    ∧ (createStatus none).2 = "Ok"
    ∧ (∀ st : OCStatus,
        createStatus (some st) = (statusCodeOfInt st.code, st.message)) :=
  ⟨rfl, rfl, fun _ => rfl⟩

end Honeycomb
